import Mathlib

/-!
Verification of the Book-Review web service (Node/Express/Mongoose).

Shallow embedding of the Book aggregate with embedded reviews
(models/book.model.js, here `src/unnamed/part_000`), the book controller
(`src/controllers/book.controller.js`) and the book router
(`src/unnamed/part_002`, mounted at `/books` in `src/app.js`).

JS numbers are modelled as `ℚ` where division occurs (the average rating)
and as `ℕ`/`Int` for counts and page arithmetic.  Mongoose ObjectIds are
modelled as `ℕ`.  Timestamps other than the `createdAt` sort key are not
modelled.
-/

namespace BookReview

/-- A review subdocument (reviewSchema in book.model.js): an `_id`
(assigned by Mongoose on push), the authoring user's id, an integer
rating 1..5 stored as a JS number, and a comment. -/
structure Review where
  rid : ℕ
  user : ℕ
  rating : ℚ
  comment : String
deriving DecidableEq, Repr

/-- A book document (bookSchema in book.model.js): the four required text
fields, the embedded review list, the two derived fields
(`averageRating`, `totalReviews`) and the `createdAt` timestamp used by
the list endpoint's sort. -/
structure Book where
  title : String
  author : String
  genre : String
  description : String
  reviews : List Review
  averageRating : ℚ
  totalReviews : ℕ
  createdAt : ℕ
deriving DecidableEq, Repr

/-- `this.reviews.reduce((sum, review) => sum + review.rating, 0)`
from bookSchema.methods.updateRating. -/
def sumRatings (rs : List Review) : ℚ :=
  rs.foldl (fun sum r => sum + r.rating) 0

/-- bookSchema.methods.updateRating (book.model.js lines 66-76):
if the review list is empty set both derived fields to 0, otherwise set
`averageRating` to the sum of the ratings divided by the count and
`totalReviews` to the count. -/
def updateRating (b : Book) : Book :=
  if b.reviews.length = 0 then
    { b with averageRating := 0, totalReviews := 0 }
  else
    let totalRating := sumRatings b.reviews
    { b with averageRating := totalRating / (b.reviews.length : ℚ),
             totalReviews := b.reviews.length }

/-- `bookSchema.pre('save', ...)` (book.model.js lines 79-82): every save
runs updateRating on the document before it is persisted, so persisting a
book is modelled as applying `updateRating`. -/
def save (b : Book) : Book := updateRating b

/-- The pair `(averageRating, totalReviews)` recomputed from a review
list, as the spec's Rating Recomputation contract describes it. -/
def recompute (rs : List Review) : ℚ × ℕ :=
  if rs.length = 0 then (0, 0)
  else (sumRatings rs / (rs.length : ℚ), rs.length)

/-- A book whose stored derived fields agree with recomputation from its
current review list. -/
def ratingConsistent (b : Book) : Prop :=
  b.averageRating = (recompute b.reviews).1 ∧
  b.totalReviews = (recompute b.reviews).2

/-- A sample book used by concrete witnesses. -/
def mkBook (t : ℕ) (rs : List Review) : Book :=
  { title := "t", author := "a", genre := "g", description := "d",
    reviews := rs, averageRating := 0, totalReviews := 0, createdAt := t }

/-- The error taxonomy of the controller as the spec names it:
404 → NotFound, 400 on an existing review → DuplicateReview,
403 → Forbidden, 400 on a missing query/id → InvalidRequest. -/
inductive ApiError where
  | NotFound
  | DuplicateReview
  | Forbidden
  | InvalidRequest
deriving DecidableEq, Repr

/-- createBook (book.controller.js lines 5-18): builds a Book from the
validated body fields with the schema defaults (empty reviews, zeroed
derived fields) and saves it; the pre-save hook runs on the save. -/
def createBook (title author genre description : String) (now : ℕ) : Book :=
  save { title := title, author := author, genre := genre,
         description := description, reviews := [],
         averageRating := 0, totalReviews := 0, createdAt := now }

/-- addReview (book.controller.js lines 92-128).  `findResult` is the
outcome of `Book.findById`; `newId` is the `_id` Mongoose assigns to the
pushed subdocument.  A 404 when the book is absent, a 400
("You have already reviewed this book") when `reviews.find` locates a
review by the same user, otherwise push and save. -/
def addReview (findResult : Option Book) (userId newId : ℕ)
    (rating : ℚ) (comment : String) : Except ApiError Book :=
  match findResult with
  | none => .error .NotFound
  | some book =>
    match book.reviews.find? (fun r => r.user == userId) with
    | some _ => .error .DuplicateReview
    | none =>
      .ok (save { book with
        reviews := book.reviews ++ [⟨newId, userId, rating, comment⟩] })

/-- Mutating the subdocument returned by `reviews.find` in place:
replace the first element satisfying `p` by its image under `f`. -/
def updateFirst (p : Review → Bool) (f : Review → Review) :
    List Review → List Review
  | [] => []
  | r :: rs => if p r then f r :: rs else r :: updateFirst p f rs

/-- updateReview (book.controller.js lines 131-176): 404 when the book is
absent; if the authenticated user already has a review, overwrite its
rating and comment in place, otherwise push a new review; then save. -/
def updateReview (findResult : Option Book) (userId newId : ℕ)
    (rating : ℚ) (comment : String) : Except ApiError Book :=
  match findResult with
  | none => .error .NotFound
  | some book =>
    match book.reviews.find? (fun r => r.user == userId) with
    | some _ =>
      .ok (save { book with
        reviews := updateFirst (fun r => r.user == userId)
          (fun r => { r with rating := rating, comment := comment })
          book.reviews })
    | none =>
      .ok (save { book with
        reviews := book.reviews ++ [⟨newId, userId, rating, comment⟩] })

/-- `review.remove()` on the subdocument located by `reviews.id(...)`:
drop the first element satisfying `p`. -/
def eraseFirst (p : Review → Bool) : List Review → List Review
  | [] => []
  | r :: rs => if p r then rs else r :: eraseFirst p rs

/-- deleteReview (book.controller.js lines 179-207): 404 when the book is
absent, 404 when `reviews.id(reviewId)` finds no review, 403 when the
requesting user is not the review's author, otherwise remove the
subdocument and save. -/
def deleteReview (findResult : Option Book) (reviewId requestingUserId : ℕ) :
    Except ApiError Book :=
  match findResult with
  | none => .error .NotFound
  | some book =>
    match book.reviews.find? (fun r => r.rid == reviewId) with
    | none => .error .NotFound
    | some review =>
      if review.user ≠ requestingUserId then .error .Forbidden
      else
        .ok (save { book with
          reviews := eraseFirst (fun r => r.rid == reviewId) book.reviews })

/-- At most one review per user in a book's review list: the user ids of
the embedded reviews are pairwise distinct. -/
def usersNodup (b : Book) : Prop :=
  (b.reviews.map Review.user).Nodup

/-- Insertion into a list kept in descending order by the Boolean
comparison `ge`; `sortDescBy` models the database's `.sort(...)` on a
query result. -/
def insertDescBy {α : Type} (ge : α → α → Bool) (b : α) : List α → List α
  | [] => [b]
  | x :: xs => if ge b x then b :: x :: xs else x :: insertDescBy ge b xs

def sortDescBy {α : Type} (ge : α → α → Bool) (l : List α) : List α :=
  l.foldr (insertDescBy ge) []

/-- ECMAScript StrWhiteSpaceChar: the WhiteSpace and LineTerminator
code points trimmed by `parseInt` (space, tab, LF, VT, FF, CR, NBSP,
Ogham space mark, the U+2000..200A spaces, LS, PS, NNBSP, MMSP,
ideographic space and the BOM). -/
def jsWhitespace (c : Char) : Bool :=
  c == ' ' || c == '\t' || c == '\n' || c == '\r' ||
  c.toNat == 0x0B || c.toNat == 0x0C || c.toNat == 0xA0 ||
  c.toNat == 0x1680 ||
  (decide (0x2000 ≤ c.toNat) && decide (c.toNat ≤ 0x200A)) ||
  c.toNat == 0x2028 || c.toNat == 0x2029 || c.toNat == 0x202F ||
  c.toNat == 0x205F || c.toNat == 0x3000 || c.toNat == 0xFEFF

/-- The value of the leading run of decimal digits, or none when the
string does not start with a digit. -/
def jsDigits (cs : List Char) : Option ℕ :=
  let ds := cs.takeWhile Char.isDigit
  if ds.isEmpty then none
  else some (ds.foldl (fun a c => 10 * a + (c.toNat - 48)) 0)

def isHexDigitJs (c : Char) : Bool :=
  c.isDigit ||
  (decide (97 ≤ c.toNat) && decide (c.toNat ≤ 102)) ||
  (decide (65 ≤ c.toNat) && decide (c.toNat ≤ 70))

def hexVal (c : Char) : ℕ :=
  if c.isDigit then c.toNat - 48
  else if decide (97 ≤ c.toNat) then c.toNat - 87
  else c.toNat - 55

/-- The value of the leading run of hexadecimal digits, or none when
there is no such digit. -/
def jsHexDigits (cs : List Char) : Option ℕ :=
  let ds := cs.takeWhile isHexDigitJs
  if ds.isEmpty then none
  else some (ds.foldl (fun a c => 16 * a + hexVal c) 0)

/-- The unsigned magnitude read by `parseInt` with no radix argument:
a `0x`/`0X` prefix switches to radix 16 (NaN when no hex digit
follows), otherwise the leading run of decimal digits. -/
def jsUnsigned (cs : List Char) : Option ℕ :=
  match cs with
  | '0' :: 'x' :: rest => jsHexDigits rest
  | '0' :: 'X' :: rest => jsHexDigits rest
  | _ => jsDigits cs

/-- JS `parseInt` on a string (no radix argument): trim leading
ECMAScript whitespace, read an optional sign, then the magnitude —
hexadecimal after a `0x`/`0X` prefix, decimal otherwise; `none` stands
for NaN (no digit found). -/
def jsParseInt (s : String) : Option Int :=
  match s.toList.dropWhile jsWhitespace with
  | '-' :: rest => (jsUnsigned rest).map (fun n => -(n : Int))
  | '+' :: rest => (jsUnsigned rest).map (fun n => (n : Int))
  | cs => (jsUnsigned cs).map (fun n => (n : Int))

/-- `parseInt(req.query.x) || d` (book.controller.js lines 23-24): a
missing parameter parses to NaN, a non-numeric one parses to NaN, and 0
is falsy; all of them fall back to the default `d`. -/
def jsOrDefault (q : Option String) (d : Int) : Int :=
  match q with
  | none => d
  | some s =>
    match jsParseInt s with
    | none => d
    | some n => if n = 0 then d else n

def leadMatch : List Char → List Char → Bool
  | [], _ => true
  | _ :: _, [] => false
  | p :: ps, h :: hs => p == h && leadMatch ps hs

def hasSub (pat : List Char) : List Char → Bool
  | [] => pat.isEmpty
  | c :: t => leadMatch pat (c :: t) || hasSub pat t

/-- `new RegExp(pat, 'i').test s` for a pattern without regex
metacharacters (book.controller.js lines 28-29): case-insensitive
substring containment. -/
def regexTestI (pat s : String) : Bool :=
  hasSub (pat.toList.map Char.toLower) (s.toList.map Char.toLower)

/-- The query object built by getAllBooks: a filter on `author` and
`genre` when the corresponding query parameters are present.  (In JS an
empty filter string is falsy and adds no clause; an empty pattern also
matches every string, so the outcomes coincide.) -/
def matchesFilters (qauthor qgenre : Option String) (b : Book) : Bool :=
  (match qauthor with
   | none => true
   | some a => regexTestI a b.author) &&
  (match qgenre with
   | none => true
   | some g => regexTestI g b.genre)

/-- Descending creation-time order, `.sort({ createdAt: -1 })`. -/
def geCreated (a c : Book) : Bool :=
  decide (c.createdAt ≤ a.createdAt)

/-- The JSON body getAllBooks responds with. -/
structure ListResult where
  books : List Book
  currentPage : Int
  totalPages : Int
  totalBooks : ℕ
deriving Repr

/-- getAllBooks (book.controller.js lines 21-48) over the collection
`db`: default page 1 and limit 10, skip `(page-1)*limit`, filter by
case-insensitive partial match on author and genre, sort by `createdAt`
descending, and report `currentPage`, `totalPages = ceil(total/limit)`
and the total matching count. -/
def getAllBooks (db : List Book)
    (qpage qlimit qauthor qgenre : Option String) : ListResult :=
  let page := jsOrDefault qpage 1
  let limit := jsOrDefault qlimit 10
  let skip := (page - 1) * limit
  let filtered := db.filter (matchesFilters qauthor qgenre)
  let total := filtered.length
  { books := ((sortDescBy geCreated filtered).drop skip.toNat).take limit.toNat
    currentPage := page
    totalPages := Int.ceil ((total : ℚ) / ((limit : Int) : ℚ))
    totalBooks := total }

/-- searchBooks (book.controller.js lines 70-89): 400 when `query` is
missing or empty; otherwise a `$text` search on the index over title and
author (book.model.js line 63), sorted by descending relevance score and
limited to 10.  The relevance score assigned by the database engine is
abstracted as the parameter `score`, a function of the query and of the
two indexed fields; a book matches when its score is positive. -/
def searchBooks (score : String → String → String → ℚ) (db : List Book)
    (query : Option String) : Except ApiError (List Book) :=
  match query with
  | none => .error .InvalidRequest
  | some q =>
    if q = "" then .error .InvalidRequest
    else
      .ok ((sortDescBy
          (fun a c => decide (score q c.title c.author ≤ score q a.title a.author))
          (db.filter (fun b => decide (0 < score q b.title b.author)))).take 10)

inductive Method where
  | GET | POST | PUT | DELETE
deriving DecidableEq, Repr

inductive Handler where
  | createBook | getAllBooks | searchBooks | getBookById
  | addReview | updateReview | deleteReview
deriving DecidableEq, Repr

/-- One segment of an Express route pattern: a literal or a `:name`
parameter. -/
inductive Seg where
  | lit (s : String)
  | param (name : String)
deriving DecidableEq, Repr

structure Route where
  method : Method
  segs : List Seg
  handler : Handler

/-- book.routes.js (src/unnamed/part_002 lines 20-29), in registration
order.  Note the PUT route is the literal path `/reviews/bookId` with no
parameters, and the DELETE route is `/:id` with no `:reviewId`. -/
def bookRouter : List Route :=
  [⟨.POST, [], .createBook⟩,
   ⟨.GET, [], .getAllBooks⟩,
   ⟨.GET, [.lit "search"], .searchBooks⟩,
   ⟨.GET, [.param "id"], .getBookById⟩,
   ⟨.POST, [.param "id", .lit "reviews"], .addReview⟩,
   ⟨.PUT, [.lit "reviews", .lit "bookId"], .updateReview⟩,
   ⟨.DELETE, [.param "id"], .deleteReview⟩]

/-- Express path matching: a pattern matches a path of the same length
segment by segment, binding `:name` parameters. -/
def segsMatch : List Seg → List String → Option (List (String × String))
  | [], [] => some []
  | .lit s :: ps, x :: xs => if s = x then segsMatch ps xs else none
  | .param n :: ps, x :: xs => (segsMatch ps xs).map (fun l => (n, x) :: l)
  | _, _ => none

def findRoute (m : Method) (path : List String) :
    List Route → Option (Handler × List (String × String))
  | [] => none
  | r :: rs =>
    if r.method = m then
      match segsMatch r.segs path with
      | some ps => some (r.handler, ps)
      | none => findRoute m path rs
    else findRoute m path rs

/-- `app.use('/books', bookRoutes)` (app.js line 23): requests whose
first path segment is `books` are dispatched to the book router; the
matched handler is returned with the bound path parameters. -/
def dispatch (m : Method) : List String → Option (Handler × List (String × String))
  | "books" :: rest => findRoute m rest bookRouter
  | _ => none

/-- A collection of n books with distinct creation times, used by the
pagination scenario. -/
def mkDb (n : ℕ) : List Book :=
  (List.range n).map (fun i => mkBook i [])

theorem save_reviews (b : Book) : (save b).reviews = b.reviews := by
  unfold save updateRating
  split <;> rfl

theorem save_createdAt (b : Book) : (save b).createdAt = b.createdAt := by
  unfold save updateRating
  split <;> rfl

theorem ratingConsistent_save (b : Book) : ratingConsistent (save b) := by
  unfold ratingConsistent save updateRating recompute
  by_cases h : b.reviews.length = 0 <;> simp [h]

theorem save_save (b : Book) : save (save b) = save b := by
  unfold save updateRating
  by_cases h : b.reviews.length = 0 <;> simp [h]

/-- C1: the rating recomputation function (`bookSchema.methods.updateRating`)
returns `(0, 0)` on an empty review collection; on a non-empty collection
it sets `averageRating` to the exact quotient `sum(ratings)/count` and
`totalReviews` to `count`; and a book with reviews rated `[5,3,4]` gets
`averageRating = 4` and `totalReviews = 3`. -/
theorem updateRating_spec (b : Book) :
    (b.reviews = [] →
      (updateRating b).averageRating = 0 ∧ (updateRating b).totalReviews = 0) ∧
    (b.reviews ≠ [] →
      (updateRating b).averageRating = sumRatings b.reviews / (b.reviews.length : ℚ) ∧
      (updateRating b).totalReviews = b.reviews.length) ∧
    ((updateRating (mkBook 0 [⟨1, 1, 5, "c"⟩, ⟨2, 2, 3, "c"⟩, ⟨3, 3, 4, "c"⟩])).averageRating = 4 ∧
     (updateRating (mkBook 0 [⟨1, 1, 5, "c"⟩, ⟨2, 2, 3, "c"⟩, ⟨3, 3, 4, "c"⟩])).totalReviews = 3) := by
  refine ⟨fun h => ?_, fun h => ?_, by norm_num [updateRating, mkBook, sumRatings]⟩
  · simp [updateRating, h]
  · have hl : b.reviews.length ≠ 0 := by simpa using h
    simp [updateRating, hl]

/-- Witness for C1 at a concrete book: the empty book and the `[5,3,4]`
scenario. -/
theorem updateRating_spec_witness :
    (updateRating (mkBook 0 [])).averageRating = 0 ∧
    (updateRating (mkBook 0 [])).totalReviews = 0 :=
  (updateRating_spec (mkBook 0 [])).1 rfl

theorem save_avg (b : Book) :
    (save b).averageRating = (recompute b.reviews).1 := by
  have h := (ratingConsistent_save b).1
  rwa [save_reviews] at h

theorem save_total (b : Book) :
    (save b).totalReviews = (recompute b.reviews).2 := by
  have h := (ratingConsistent_save b).2
  rwa [save_reviews] at h

/-- C2: every operation that persists the aggregate goes through `save`,
whose pre-save hook recomputes the derived fields before the document is
persisted; hence every persisted Book state has `averageRating` and
`totalReviews` consistent with its current review list, and the derived
fields are never set independently of the recomputation. -/
theorem persisted_ratingConsistent :
    (∀ t a g d now, ratingConsistent (createBook t a g d now)) ∧
    (∀ fr uid nid rat com b', addReview fr uid nid rat com = .ok b' →
      ratingConsistent b') ∧
    (∀ fr uid nid rat com b', updateReview fr uid nid rat com = .ok b' →
      ratingConsistent b') ∧
    (∀ fr rid uid b', deleteReview fr rid uid = .ok b' →
      ratingConsistent b') := by
  refine ⟨fun t a g d now => ratingConsistent_save _, ?_, ?_, ?_⟩
  · intro fr uid nid rat com b' h
    cases fr with
    | none => simp [addReview] at h
    | some book =>
      simp only [addReview] at h
      split at h
      · simp at h
      · rw [Except.ok.injEq] at h
        exact h ▸ ratingConsistent_save _
  · intro fr uid nid rat com b' h
    cases fr with
    | none => simp [updateReview] at h
    | some book =>
      simp only [updateReview] at h
      split at h
      · rw [Except.ok.injEq] at h
        exact h ▸ ratingConsistent_save _
      · rw [Except.ok.injEq] at h
        exact h ▸ ratingConsistent_save _
  · intro fr rid uid b' h
    cases fr with
    | none => simp [deleteReview] at h
    | some book =>
      simp only [deleteReview] at h
      split at h
      · simp at h
      · split at h
        · simp at h
        · rw [Except.ok.injEq] at h
          exact h ▸ ratingConsistent_save _

/-- Witness for C2 at a concrete input: adding a review by user 7 to an
empty book yields a consistent persisted state. -/
theorem persisted_ratingConsistent_witness :
    ratingConsistent (save { mkBook 0 [] with reviews := [⟨1, 7, 5, "c"⟩] }) :=
  persisted_ratingConsistent.2.1 (some (mkBook 0 [])) 7 1 5 "c" _ rfl

theorem updateFirst_map_user (p : Review → Bool) (f : Review → Review)
    (hf : ∀ r, (f r).user = r.user) :
    ∀ l : List Review, (updateFirst p f l).map Review.user = l.map Review.user
  | [] => rfl
  | r :: rs => by
    by_cases h : p r <;>
      simp [updateFirst, h, hf, updateFirst_map_user p f hf rs]

theorem eraseFirst_sublist (p : Review → Bool) :
    ∀ l : List Review, List.Sublist (eraseFirst p l) l
  | [] => List.Sublist.refl []
  | r :: rs => by
    by_cases h : p r
    · simp [eraseFirst, h]
    · simpa [eraseFirst, h] using (eraseFirst_sublist p rs).cons₂ r

/-- C3: the controller checks for an existing review by the same user
before pushing, at the aggregate level and before `save`; a duplicate add
fails with DuplicateReview (an error result persists nothing, so the book
is unchanged), and every mutating operation preserves "at most one review
per (book, user) pair". -/
theorem addReview_unique :
    (∀ b uid nid rat com, (∃ r ∈ b.reviews, r.user = uid) →
      addReview (some b) uid nid rat com = .error .DuplicateReview) ∧
    (∀ t a g d now, usersNodup (createBook t a g d now)) ∧
    (∀ b uid nid rat com b', usersNodup b →
      addReview (some b) uid nid rat com = .ok b' → usersNodup b') ∧
    (∀ b uid nid rat com b', usersNodup b →
      updateReview (some b) uid nid rat com = .ok b' → usersNodup b') ∧
    (∀ b rid uid b', usersNodup b →
      deleteReview (some b) rid uid = .ok b' → usersNodup b') := by
  refine ⟨?_, ?_, ?_, ?_, ?_⟩
  · intro b uid nid rat com hex
    obtain ⟨r, hr, hu⟩ := hex
    have hs : (b.reviews.find? (fun r => r.user == uid)).isSome :=
      List.find?_isSome.mpr ⟨r, hr, by simp [hu]⟩
    cases hf : b.reviews.find? (fun r => r.user == uid) with
    | none => rw [hf] at hs; simp at hs
    | some r' => simp [addReview, hf]
  · intro t a g d now
    simp [usersNodup, createBook, save, updateRating]
  · intro b uid nid rat com b' hnd h
    simp only [addReview] at h
    split at h
    · simp at h
    · rename_i hf
      rw [Except.ok.injEq] at h
      subst h
      unfold usersNodup
      rw [save_reviews]
      have hall := List.find?_eq_none.mp hf
      show (List.map Review.user (b.reviews ++ [⟨nid, uid, rat, com⟩])).Nodup
      simp only [List.map_append, List.map_cons, List.map_nil]
      rw [List.nodup_append]
      refine ⟨hnd, List.nodup_singleton _, ?_⟩
      intro u hu hu'
      simp only [List.mem_singleton] at hu'
      obtain ⟨r, hr, hru⟩ := List.mem_map.mp hu
      exact absurd (by simp [hru, hu']) (hall r hr)
  · intro b uid nid rat com b' hnd h
    simp only [updateReview] at h
    split at h
    · rw [Except.ok.injEq] at h
      subst h
      unfold usersNodup
      rw [save_reviews]
      show (List.map Review.user (updateFirst _ _ b.reviews)).Nodup
      rw [updateFirst_map_user (fun r => r.user == uid)
        (fun r => { r with rating := rat, comment := com }) (fun r => rfl)]
      exact hnd
    · rename_i hf
      rw [Except.ok.injEq] at h
      subst h
      unfold usersNodup
      rw [save_reviews]
      have hall := List.find?_eq_none.mp hf
      show (List.map Review.user (b.reviews ++ [⟨nid, uid, rat, com⟩])).Nodup
      simp only [List.map_append, List.map_cons, List.map_nil]
      rw [List.nodup_append]
      refine ⟨hnd, List.nodup_singleton _, ?_⟩
      intro u hu hu'
      simp only [List.mem_singleton] at hu'
      obtain ⟨r, hr, hru⟩ := List.mem_map.mp hu
      exact absurd (by simp [hru, hu']) (hall r hr)
  · intro b rid uid b' hnd h
    simp only [deleteReview] at h
    split at h
    · simp at h
    · split at h
      · simp at h
      · rw [Except.ok.injEq] at h
        subst h
        unfold usersNodup
        rw [save_reviews]
        exact hnd.sublist ((eraseFirst_sublist _ b.reviews).map Review.user)

/-- Witness for C3 at a concrete input: user 7 already reviewed the book,
so a second add fails with DuplicateReview. -/
theorem addReview_unique_witness :
    addReview (some (mkBook 0 [⟨1, 7, 5, "c"⟩])) 7 2 4 "d" =
      .error .DuplicateReview :=
  addReview_unique.1 (mkBook 0 [⟨1, 7, 5, "c"⟩]) 7 2 4 "d"
    ⟨⟨1, 7, 5, "c"⟩, by simp [mkBook], rfl⟩

/-- C4: deleteReview fails with NotFound when the book or the review is
absent, fails with Forbidden when the requesting user is not the review's
author (an error persists nothing, so nothing is removed), and otherwise
removes the identified review, recomputes the derived fields via the
pre-save hook and persists. -/
theorem deleteReview_spec :
    (∀ rid uid, deleteReview none rid uid = .error .NotFound) ∧
    (∀ b rid uid, b.reviews.find? (fun r => r.rid == rid) = none →
      deleteReview (some b) rid uid = .error .NotFound) ∧
    (∀ b rid uid r, b.reviews.find? (fun r => r.rid == rid) = some r →
      r.user ≠ uid → deleteReview (some b) rid uid = .error .Forbidden) ∧
    (∀ b rid uid r, b.reviews.find? (fun r => r.rid == rid) = some r →
      r.user = uid →
      deleteReview (some b) rid uid =
        .ok (save { b with
          reviews := eraseFirst (fun r => r.rid == rid) b.reviews }) ∧
      ∀ b', deleteReview (some b) rid uid = .ok b' → ratingConsistent b') := by
  refine ⟨fun rid uid => rfl, ?_, ?_, ?_⟩
  · intro b rid uid hf
    simp [deleteReview, hf]
  · intro b rid uid r hf hu
    simp [deleteReview, hf, hu]
  · intro b rid uid r hf hu
    have hres : deleteReview (some b) rid uid =
        .ok (save { b with
          reviews := eraseFirst (fun r => r.rid == rid) b.reviews }) := by
      simp [deleteReview, hf, hu]
    refine ⟨hres, fun b' h => ?_⟩
    rw [hres, Except.ok.injEq] at h
    exact h ▸ ratingConsistent_save _

/-- Witness for C4 at concrete inputs: user 9 may not delete user 7's
review. -/
theorem deleteReview_spec_witness :
    deleteReview (some (mkBook 0 [⟨1, 7, 5, "c"⟩])) 1 9 = .error .Forbidden :=
  deleteReview_spec.2.2.1 (mkBook 0 [⟨1, 7, 5, "c"⟩]) 1 9 ⟨1, 7, 5, "c"⟩ rfl
    (by decide)

theorem find?_updateFirst (p : Review → Bool) (f : Review → Review)
    (hp : ∀ r, p (f r) = p r) :
    ∀ l : List Review, (updateFirst p f l).find? p = (l.find? p).map f
  | [] => rfl
  | r :: rs => by
    by_cases h : p r <;>
      simp [updateFirst, h, hp, List.find?_cons, find?_updateFirst p f hp rs]

theorem updateFirst_updateFirst (p : Review → Bool) (f : Review → Review)
    (hp : ∀ r, p (f r) = p r) (hf : ∀ r, f (f r) = f r) :
    ∀ l : List Review, updateFirst p f (updateFirst p f l) = updateFirst p f l
  | [] => rfl
  | r :: rs => by
    by_cases h : p r <;>
      simp [updateFirst, h, hp, hf, updateFirst_updateFirst p f hp hf rs]

theorem find?_append_last (p : Review → Bool) (x : Review) (hx : p x = true) :
    ∀ l : List Review, (∀ r ∈ l, p r = false) → (l ++ [x]).find? p = some x
  | [], _ => by simp [List.find?_cons, hx]
  | r :: rs, hall => by
    have hr : p r = false := hall r (by simp)
    simpa [List.find?_cons, hr] using
      find?_append_last p x hx rs (fun a ha => hall a (by simp [ha]))

theorem updateFirst_append_last (p : Review → Bool) (f : Review → Review)
    (x : Review) (hx : p x = true) :
    ∀ l : List Review, (∀ r ∈ l, p r = false) →
      updateFirst p f (l ++ [x]) = l ++ [f x]
  | [], _ => by simp [updateFirst, hx]
  | r :: rs, hall => by
    have hr : p r = false := hall r (by simp)
    simpa [updateFirst, hr] using
      updateFirst_append_last p f x hx rs (fun a ha => hall a (by simp [ha]))

theorem eraseFirst_append_last (p : Review → Bool) (x : Review)
    (hx : p x = true) :
    ∀ l : List Review, (∀ r ∈ l, p r = false) → eraseFirst p (l ++ [x]) = l
  | [], _ => by simp [eraseFirst, hx]
  | r :: rs, hall => by
    have hr : p r = false := hall r (by simp)
    simpa [eraseFirst, hr] using
      eraseFirst_append_last p x hx rs (fun a ha => hall a (by simp [ha]))

/-- C5: updateReview is idempotent: once
`updateReview (some b) uid nid rating comment` has produced the persisted
state `b1`, running the same update again (with any fresh id `nid'` for
the would-be new subdocument) produces exactly `b1` — whether or not the
user already had a review on the book. -/
theorem updateReview_idem (b b1 : Book) (uid nid nid' : ℕ) (rat : ℚ)
    (com : String)
    (h : updateReview (some b) uid nid rat com = .ok b1) :
    updateReview (some b1) uid nid' rat com = .ok b1 := by
  simp only [updateReview] at h
  split at h
  · rename_i r hf
    rw [Except.ok.injEq] at h
    subst h
    have hfind : List.find? (fun r => r.user == uid)
        (save { b with
          reviews := updateFirst (fun r => r.user == uid)
            (fun r => { r with rating := rat, comment := com })
            b.reviews }).reviews =
        some ((fun r => { r with rating := rat, comment := com }) r) := by
      rw [save_reviews]
      show List.find? (fun r => r.user == uid)
          (updateFirst (fun r => r.user == uid)
            (fun r => { r with rating := rat, comment := com }) b.reviews) = _
      rw [find?_updateFirst (fun r => r.user == uid)
        (fun r => { r with rating := rat, comment := com })
        (fun r => rfl), hf]
      rfl
    simp only [updateReview]
    split
    · rename_i r' hf'
      have hrw : updateFirst (fun r => r.user == uid)
          (fun r => { r with rating := rat, comment := com })
          (save { b with
            reviews := updateFirst (fun r => r.user == uid)
              (fun r => { r with rating := rat, comment := com })
              b.reviews }).reviews =
          (save { b with
            reviews := updateFirst (fun r => r.user == uid)
              (fun r => { r with rating := rat, comment := com })
              b.reviews }).reviews := by
        rw [save_reviews]
        exact updateFirst_updateFirst (fun r => r.user == uid)
          (fun r => { r with rating := rat, comment := com })
          (fun r => rfl) (fun r => rfl) b.reviews
      rw [hrw]
      exact congrArg Except.ok (save_save _)
    · rename_i hf'
      rw [hfind] at hf'
      exact absurd hf' (by simp)
  · rename_i hf
    rw [Except.ok.injEq] at h
    subst h
    have hall : ∀ r ∈ b.reviews, (r.user == uid) = false := by
      intro r hr
      simpa using List.find?_eq_none.mp hf r hr
    have hfind : List.find? (fun r => r.user == uid)
        (save { b with
          reviews := b.reviews ++ [⟨nid, uid, rat, com⟩] }).reviews =
        some ⟨nid, uid, rat, com⟩ := by
      rw [save_reviews]
      exact find?_append_last (fun r => r.user == uid) ⟨nid, uid, rat, com⟩
        (by simp) b.reviews hall
    simp only [updateReview]
    split
    · rename_i r' hf'
      have hrw : updateFirst (fun r => r.user == uid)
          (fun r => { r with rating := rat, comment := com })
          (save { b with
            reviews := b.reviews ++ [⟨nid, uid, rat, com⟩] }).reviews =
          (save { b with
            reviews := b.reviews ++ [⟨nid, uid, rat, com⟩] }).reviews := by
        rw [save_reviews]
        rw [updateFirst_append_last (fun r => r.user == uid)
          (fun r => { r with rating := rat, comment := com })
          ⟨nid, uid, rat, com⟩ (by simp) b.reviews hall]
      rw [hrw]
      exact congrArg Except.ok (save_save _)
    · rename_i hf'
      rw [hfind] at hf'
      exact absurd hf' (by simp)

/-- Witness for C5 at a concrete input: user 7 upserts a review onto the
empty book; repeating the same update leaves the persisted state
unchanged. -/
theorem updateReview_idem_witness :
    updateReview
      (some (save { mkBook 0 [] with reviews := [⟨1, 7, 5, "c"⟩] }))
      7 2 5 "c" =
    .ok (save { mkBook 0 [] with reviews := [⟨1, 7, 5, "c"⟩] }) :=
  updateReview_idem (mkBook 0 [])
    (save { mkBook 0 [] with reviews := [⟨1, 7, 5, "c"⟩] }) 7 1 2 5 "c" rfl

/-- C6: on a consistent book, adding a review (with a fresh subdocument
id) and then immediately deleting that same review restores
`averageRating` and `totalReviews` to their pre-add values. -/
theorem add_delete_restores (b b1 : Book) (uid nid : ℕ) (rat : ℚ)
    (com : String)
    (hcons : ratingConsistent b)
    (hfresh : ∀ r ∈ b.reviews, r.rid ≠ nid)
    (hadd : addReview (some b) uid nid rat com = .ok b1) :
    ∃ b2, deleteReview (some b1) nid uid = .ok b2 ∧
      b2.averageRating = b.averageRating ∧
      b2.totalReviews = b.totalReviews := by
  simp only [addReview] at hadd
  split at hadd
  · simp at hadd
  · rename_i hf
    rw [Except.ok.injEq] at hadd
    subst hadd
    have hall : ∀ r ∈ b.reviews, (r.rid == nid) = false := by
      intro r hr
      simpa using hfresh r hr
    have hfind : List.find? (fun r => r.rid == nid)
        (save { b with
          reviews := b.reviews ++ [⟨nid, uid, rat, com⟩] }).reviews =
        some ⟨nid, uid, rat, com⟩ := by
      rw [save_reviews]
      exact find?_append_last (fun r => r.rid == nid) ⟨nid, uid, rat, com⟩
        (by simp) b.reviews hall
    have herase : eraseFirst (fun r => r.rid == nid)
        (save { b with
          reviews := b.reviews ++ [⟨nid, uid, rat, com⟩] }).reviews =
        b.reviews := by
      rw [save_reviews]
      exact eraseFirst_append_last (fun r => r.rid == nid)
        ⟨nid, uid, rat, com⟩ (by simp) b.reviews hall
    have hdel : deleteReview
        (some (save { b with
          reviews := b.reviews ++ [⟨nid, uid, rat, com⟩] })) nid uid =
        .ok (save { save { b with
              reviews := b.reviews ++ [⟨nid, uid, rat, com⟩] } with
          reviews := eraseFirst (fun r => r.rid == nid)
            (save { b with
              reviews := b.reviews ++ [⟨nid, uid, rat, com⟩] }).reviews }) := by
      simp only [deleteReview]
      rw [hfind]
      simp
    refine ⟨_, hdel, ?_, ?_⟩
    · rw [save_avg]
      show (recompute (eraseFirst (fun r => r.rid == nid)
        (save { b with
          reviews := b.reviews ++ [⟨nid, uid, rat, com⟩] }).reviews)).1 =
        b.averageRating
      rw [herase]
      exact hcons.1.symm
    · rw [save_total]
      show (recompute (eraseFirst (fun r => r.rid == nid)
        (save { b with
          reviews := b.reviews ++ [⟨nid, uid, rat, com⟩] }).reviews)).2 =
        b.totalReviews
      rw [herase]
      exact hcons.2.symm

/-- Witness for C6 at a concrete input: adding review 1 by user 7 to the
empty book and deleting it again restores both derived fields to 0. -/
theorem add_delete_restores_witness :
    ∃ b2, deleteReview
        (some (save { mkBook 0 [] with reviews := [⟨1, 7, 5, "c"⟩] })) 1 7 =
        .ok b2 ∧
      b2.averageRating = 0 ∧ b2.totalReviews = 0 :=
  add_delete_restores (mkBook 0 [])
    (save { mkBook 0 [] with reviews := [⟨1, 7, 5, "c"⟩] }) 7 1 5 "c"
    ⟨rfl, rfl⟩ (by simp [mkBook]) rfl

theorem mem_insertDescBy {α : Type} (ge : α → α → Bool) (b x : α) :
    ∀ l : List α, x ∈ insertDescBy ge b l → x = b ∨ x ∈ l
  | [] => by simp [insertDescBy]
  | y :: ys => by
    intro hx
    by_cases h : ge b y = true
    · simpa [insertDescBy, h, List.mem_cons] using hx
    · simp only [insertDescBy, if_neg h, List.mem_cons] at hx
      rcases hx with rfl | hx'
      · right; simp
      · rcases mem_insertDescBy ge b x ys hx' with h' | h'
        · exact Or.inl h'
        · right; simp [h']

theorem mem_sortDescBy {α : Type} (ge : α → α → Bool) (x : α) :
    ∀ l : List α, x ∈ sortDescBy ge l → x ∈ l
  | [] => by simp [sortDescBy]
  | y :: ys => by
    intro hx
    rcases mem_insertDescBy ge y x (sortDescBy ge ys) hx with rfl | hx'
    · simp
    · simp [mem_sortDescBy ge x ys hx']

theorem pairwise_insertDescBy {α : Type} (ge : α → α → Bool)
    (htot : ∀ a c, ge a c = false → ge c a = true)
    (htrans : ∀ a c d, ge a c = true → ge c d = true → ge a d = true)
    (b : α) :
    ∀ l : List α, l.Pairwise (fun a c => ge a c = true) →
      (insertDescBy ge b l).Pairwise (fun a c => ge a c = true)
  | [] => by simp [insertDescBy]
  | y :: ys => by
    intro hp
    rw [List.pairwise_cons] at hp
    obtain ⟨hy, hys⟩ := hp
    by_cases h : ge b y = true
    · simp only [insertDescBy, if_pos h]
      rw [List.pairwise_cons]
      refine ⟨?_, ?_⟩
      · intro z hz
        rcases List.mem_cons.mp hz with rfl | hz'
        · exact h
        · exact htrans b y z h (hy z hz')
      · rw [List.pairwise_cons]
        exact ⟨hy, hys⟩
    · simp only [insertDescBy, if_neg h]
      rw [List.pairwise_cons]
      refine ⟨?_, pairwise_insertDescBy ge htot htrans b ys hys⟩
      intro z hz
      rcases mem_insertDescBy ge b z ys hz with rfl | hz'
      · exact htot z y (by simpa using h)
      · exact hy z hz'

theorem pairwise_sortDescBy {α : Type} (ge : α → α → Bool)
    (htot : ∀ a c, ge a c = false → ge c a = true)
    (htrans : ∀ a c d, ge a c = true → ge c d = true → ge a d = true) :
    ∀ l : List α, (sortDescBy ge l).Pairwise (fun a c => ge a c = true)
  | [] => List.Pairwise.nil
  | x :: xs =>
    pairwise_insertDescBy ge htot htrans x (sortDescBy ge xs)
      (pairwise_sortDescBy ge htot htrans xs)

theorem geCreated_total (a c : Book) :
    geCreated a c = false → geCreated c a = true := by
  simp [geCreated]
  omega

theorem geCreated_trans (a c d : Book) :
    geCreated a c = true → geCreated c d = true → geCreated a d = true := by
  simp [geCreated]
  omega

/-- C7: getAllBooks defaults to page 1 and limit 10, returns books in
descending creation-time order, every returned book comes from the
collection and passes the case-insensitive partial-match filters,
`currentPage`/`totalPages`/`totalBooks` are the page number,
`ceil(total/limit)` and the matching count, and with 15 books, page 2
and limit 10 it returns 5 books, totalPages 2 and totalBooks 15. -/
theorem getAllBooks_spec (db : List Book)
    (qpage qlimit qauthor qgenre : Option String) :
    ((getAllBooks db none none qauthor qgenre).currentPage = 1 ∧
     (getAllBooks db none none qauthor qgenre).books =
       (sortDescBy geCreated (db.filter (matchesFilters qauthor qgenre))).take 10) ∧
    List.Pairwise (fun a c => c.createdAt ≤ a.createdAt)
      (getAllBooks db qpage qlimit qauthor qgenre).books ∧
    (∀ b ∈ (getAllBooks db qpage qlimit qauthor qgenre).books,
      b ∈ db ∧ matchesFilters qauthor qgenre b = true) ∧
    ((getAllBooks db qpage qlimit qauthor qgenre).currentPage =
       jsOrDefault qpage 1 ∧
     (getAllBooks db qpage qlimit qauthor qgenre).totalBooks =
       (db.filter (matchesFilters qauthor qgenre)).length ∧
     (getAllBooks db qpage qlimit qauthor qgenre).totalPages =
       Int.ceil ((((db.filter (matchesFilters qauthor qgenre)).length : ℕ) : ℚ) /
         ((jsOrDefault qlimit 10 : Int) : ℚ))) ∧
    ((getAllBooks (mkDb 15) (some "2") (some "10") none none).books.length = 5 ∧
     (getAllBooks (mkDb 15) (some "2") (some "10") none none).totalPages = 2 ∧
     (getAllBooks (mkDb 15) (some "2") (some "10") none none).totalBooks = 15) := by
  refine ⟨⟨rfl, rfl⟩, ?_, ?_, ⟨rfl, rfl, rfl⟩, ?_, ?_, by decide⟩
  · have hp := pairwise_sortDescBy geCreated geCreated_total geCreated_trans
      (db.filter (matchesFilters qauthor qgenre))
    have hsub := (List.take_sublist (jsOrDefault qlimit 10).toNat
        (((sortDescBy geCreated (db.filter (matchesFilters qauthor qgenre))).drop
          ((jsOrDefault qpage 1 - 1) * jsOrDefault qlimit 10).toNat))).trans
      (List.drop_sublist _ _)
    exact (hp.sublist hsub).imp (fun h => by simpa [geCreated] using h)
  · intro b hb
    have hb1 := List.mem_of_mem_take hb
    have hb2 := List.mem_of_mem_drop hb1
    have hb3 := mem_sortDescBy geCreated b _ hb2
    exact List.mem_filter.mp hb3
  · decide
  · have h15 : ((mkDb 15).filter (matchesFilters none none)).length = 15 := by
      decide
    show Int.ceil (((((mkDb 15).filter (matchesFilters none none)).length : ℕ) : ℚ) /
      ((jsOrDefault (some "10") 10 : Int) : ℚ)) = 2
    rw [h15]
    rw [show jsOrDefault (some "10") 10 = 10 from by decide]
    rw [Int.ceil_eq_iff]
    norm_num

/-- Witness for C7 at a concrete input: the second book of a two-book
collection passes the case-insensitive author filter "A" and appears on
the default page. -/
theorem getAllBooks_spec_witness :
    mkBook 1 [] ∈
      (getAllBooks [mkBook 0 [], mkBook 1 []] none none (some "A") none).books ∧
    mkBook 1 [] ∈ [mkBook 0 [], mkBook 1 []] ∧
    matchesFilters (some "A") none (mkBook 1 []) = true :=
  ⟨by decide,
   (getAllBooks_spec [mkBook 0 [], mkBook 1 []] none none (some "A") none).2.2.1
     (mkBook 1 []) (by decide)⟩

/-- C8: searchBooks fails with InvalidRequest exactly when the query is
missing or empty; otherwise it returns at most 10 books, each from the
collection and matching (positive relevance score on the indexed title
and author fields), in descending relevance-score order. -/
theorem searchBooks_spec (score : String → String → String → ℚ)
    (db : List Book) (q : Option String) :
    (searchBooks score db q = .error .InvalidRequest ↔
      (q = none ∨ q = some "")) ∧
    (∀ s, q = some s → s ≠ "" →
      ∃ l, searchBooks score db q = .ok l ∧
        l.length ≤ 10 ∧
        (∀ b ∈ l, b ∈ db ∧ 0 < score s b.title b.author) ∧
        List.Pairwise
          (fun a c => score s c.title c.author ≤ score s a.title a.author) l) := by
  constructor
  · constructor
    · intro h
      cases q with
      | none => exact Or.inl rfl
      | some s =>
        by_cases hs : s = ""
        · exact Or.inr (by rw [hs])
        · simp [searchBooks, hs] at h
    · rintro (rfl | rfl)
      · rfl
      · rfl
  · rintro s rfl hs
    refine ⟨(sortDescBy
        (fun a c => decide (score s c.title c.author ≤ score s a.title a.author))
        (db.filter (fun b => decide (0 < score s b.title b.author)))).take 10,
      by simp [searchBooks, hs], List.length_take_le 10 _, ?_, ?_⟩
    · intro b hb
      have hb1 := List.mem_of_mem_take hb
      have hb2 := mem_sortDescBy _ b _ hb1
      have hb3 := List.mem_filter.mp hb2
      exact ⟨hb3.1, by simpa using hb3.2⟩
    · have hp := pairwise_sortDescBy
        (fun a c => decide (score s c.title c.author ≤ score s a.title a.author))
        (fun a c h => by
          simp only [decide_eq_false_iff_not] at h
          simpa using le_of_not_le h)
        (fun a c d h1 h2 => by
          simp only [decide_eq_true_eq] at h1 h2 ⊢
          exact le_trans h2 h1)
        (db.filter (fun b => decide (0 < score s b.title b.author)))
      exact (hp.sublist (List.take_sublist _ _)).imp (fun h => by simpa using h)

/-- Witness for C8 at a concrete input: a constant positive score on a
one-book collection and the non-empty query "x". -/
theorem searchBooks_spec_witness :
    ∃ l, searchBooks (fun _ _ _ => (1 : ℚ)) [mkBook 0 []] (some "x") = .ok l ∧
      l.length ≤ 10 ∧
      (∀ b ∈ l, b ∈ [mkBook 0 []] ∧ (0 : ℚ) < 1) ∧
      List.Pairwise (fun _ _ => (1 : ℚ) ≤ 1) l :=
  (searchBooks_spec (fun _ _ _ => (1 : ℚ)) [mkBook 0 []] (some "x")).2 "x" rfl
    (by decide)

theorem jsOrDefault_default (q : Option String) (d : Int)
    (h : q = none ∨ ∃ s, q = some s ∧
      (jsParseInt s = none ∨ jsParseInt s = some 0)) :
    jsOrDefault q d = d := by
  rcases h with rfl | ⟨s, rfl, hs | hs⟩
  · rfl
  · simp [jsOrDefault, hs]
  · simp [jsOrDefault, hs]

/-- C10: a page or limit query parameter that is missing, non-numeric
(parseInt yields NaN) or zero is silently replaced by the default
(page 1, limit 10): the returned currentPage is 1 and the returned page
is the first 10 books of the sorted, filtered collection. -/
theorem getAllBooks_default_on_bad_params (db : List Book)
    (qpage qlimit qauthor qgenre : Option String)
    (hp : qpage = none ∨ ∃ s, qpage = some s ∧
      (jsParseInt s = none ∨ jsParseInt s = some 0))
    (hl : qlimit = none ∨ ∃ s, qlimit = some s ∧
      (jsParseInt s = none ∨ jsParseInt s = some 0)) :
    (getAllBooks db qpage qlimit qauthor qgenre).currentPage = 1 ∧
    (getAllBooks db qpage qlimit qauthor qgenre).books =
      (sortDescBy geCreated (db.filter (matchesFilters qauthor qgenre))).take 10 := by
  have h1 : jsOrDefault qpage 1 = 1 := jsOrDefault_default _ _ hp
  have h2 : jsOrDefault qlimit 10 = 10 := jsOrDefault_default _ _ hl
  constructor
  · exact h1
  · show ((sortDescBy geCreated (db.filter (matchesFilters qauthor qgenre))).drop
        ((jsOrDefault qpage 1 - 1) * jsOrDefault qlimit 10).toNat).take
        (jsOrDefault qlimit 10).toNat =
      (sortDescBy geCreated (db.filter (matchesFilters qauthor qgenre))).take 10
    rw [h1, h2]
    rfl

/-- Witness for C10 at a concrete input: page "abc" (non-numeric) and
limit "0" both fall back to the defaults. -/
theorem getAllBooks_default_on_bad_params_witness :
    (getAllBooks [mkBook 0 []] (some "abc") (some "0") none none).currentPage = 1 ∧
    (getAllBooks [mkBook 0 []] (some "abc") (some "0") none none).books =
      (sortDescBy geCreated
        ([mkBook 0 []].filter (matchesFilters none none))).take 10 :=
  getAllBooks_default_on_bad_params [mkBook 0 []] (some "abc") (some "0")
    none none
    (Or.inr ⟨"abc", rfl, Or.inl (by decide)⟩)
    (Or.inr ⟨"0", rfl, Or.inr (by decide)⟩)

/-- C9 (counterexample to the claimed route bindings, evaluating the
router at the claimed paths): a PUT or DELETE request to
/books/:id/reviews/:reviewId matches no route at all; updateReview is
in fact mounted at the literal path /books/reviews/bookId binding no
parameters, and deleteReview at /books/:id binding only `id`, although
both controllers read req.params.id and deleteReview reads
req.params.reviewId. -/
theorem review_routes_not_bound :
    dispatch .PUT ["books", "b1", "reviews", "r1"] = none ∧
    dispatch .DELETE ["books", "b1", "reviews", "r1"] = none ∧
    dispatch .PUT ["books", "reviews", "bookId"] =
      some (.updateReview, []) ∧
    dispatch .DELETE ["books", "b1"] =
      some (.deleteReview, [("id", "b1")]) := by
  refine ⟨by decide, by decide, by decide, by decide⟩

end BookReview
